import Mathlib

/-!
Verification of the P3P (Kneip) pose solver and its embedded quartic solver.

The definitions below are a shallow embedding of `src/pnpsolvers/P3P_Kneip.cpp`
over the real numbers: `double` arithmetic is modelled by `ℝ`, Eigen 3-vectors
and 3x3 matrices by `Vec3` and `Mat3` (column-major, matching the Eigen `col`
access), and `std::complex<double>` by `ℂ` with the principal-branch power
`Complex.cpow` standing for `std::pow`/`std::sqrt` on complex numbers.
-/

/-- A 3-component real vector (`Eigen::Vector3d`). -/
structure Vec3 where
  x : ℝ
  y : ℝ
  z : ℝ


instance : Add Vec3 :=
  ⟨fun a b => ⟨a.x + b.x, a.y + b.y, a.z + b.z⟩⟩

instance : Sub Vec3 :=
  ⟨fun a b => ⟨a.x - b.x, a.y - b.y, a.z - b.z⟩⟩

instance : Neg Vec3 :=
  ⟨fun a => ⟨-a.x, -a.y, -a.z⟩⟩

/-- Dot product of two 3-vectors (`Eigen: a.dot(b)`). -/
def Vec3.dot (a b : Vec3) : ℝ :=
  a.x * b.x + a.y * b.y + a.z * b.z

/-- Cross product of two 3-vectors (`Eigen: a.cross(b)`). -/
def Vec3.cross (a b : Vec3) : Vec3 :=
  ⟨a.y * b.z - a.z * b.y, a.z * b.x - a.x * b.z, a.x * b.y - a.y * b.x⟩

/-- Squared Euclidean norm of a 3-vector. -/
def Vec3.normSq (a : Vec3) : ℝ :=
  a.x * a.x + a.y * a.y + a.z * a.z

/-- Euclidean norm of a 3-vector (`Eigen: a.norm()`). -/
noncomputable def Vec3.norm (a : Vec3) : ℝ :=
  Real.sqrt a.normSq

/-- Componentwise division of a vector by a scalar (`Eigen: v / r`). -/
noncomputable def Vec3.divScalar (a : Vec3) (r : ℝ) : Vec3 :=
  ⟨a.x / r, a.y / r, a.z / r⟩

/-- A 3x3 real matrix stored by columns (`Eigen::Matrix3d`; `cI` is `col(I)`). -/
structure Mat3 where
  c0 : Vec3
  c1 : Vec3
  c2 : Vec3


/-- Build a matrix from its three columns. -/
def Mat3.fromCols (a b c : Vec3) : Mat3 :=
  ⟨a, b, c⟩

/-- Matrix transpose: column `j` of the transpose is row `j` of the input. -/
def Mat3.transpose (m : Mat3) : Mat3 :=
  ⟨⟨m.c0.x, m.c1.x, m.c2.x⟩, ⟨m.c0.y, m.c1.y, m.c2.y⟩, ⟨m.c0.z, m.c1.z, m.c2.z⟩⟩

/-- Matrix-vector product. -/
def Mat3.mulVec (m : Mat3) (v : Vec3) : Vec3 :=
  ⟨m.c0.x * v.x + m.c1.x * v.y + m.c2.x * v.z,
   m.c0.y * v.x + m.c1.y * v.y + m.c2.y * v.z,
   m.c0.z * v.x + m.c1.z * v.y + m.c2.z * v.z⟩

/-- Matrix-matrix product, columnwise. -/
def Mat3.mul (m n : Mat3) : Mat3 :=
  ⟨m.mulVec n.c0, m.mulVec n.c1, m.mulVec n.c2⟩

/-- Build a matrix from its three rows (`Eigen: R << r0, r1, r2` row-major). -/
def Mat3.fromRows (r0 r1 r2 : Vec3) : Mat3 :=
  (Mat3.fromCols r0 r1 r2).transpose

/-- One candidate pose: rotation `R` (camera-to-world) and camera center `C`,
the two blocks of the `Matrix<double, 3, 4> gwc` solution entry. -/
structure Pose where
  R : Mat3
  C : Vec3


/-- Principal complex square root, as computed by `std::sqrt` on
`std::complex<double>`: the principal branch of `z ^ (1/2)`. -/
noncomputable def csqrt (z : ℂ) : ℂ :=
  z ^ ((1 : ℂ) / 2)

/-- Principal complex cube root, as computed by `std::pow(z, 1.0/3.0)`:
the principal branch of `z ^ (1/3)`. -/
noncomputable def ccbrt (z : ℂ) : ℂ :=
  z ^ ((1 : ℂ) / 3)

/-! ## The quartic solver `P3P_Kneip::solveQuartic`

Reorganised only by naming the intermediate quantities of the source
(`alpha`, `beta`, `gamma`, `P`, `Q`, `R`, `U`, `y`, `w`) as top-level
functions, so that theorems can speak about them. -/

/-- Source line 212: `alpha = -3*B_pw2/(8*A_pw2) + C/A`. -/
noncomputable def alphaOf (A B C : ℝ) : ℝ :=
  -3 * (B * B) / (8 * (A * A)) + C / A

/-- Source line 213: `beta = B_pw3/(8*A_pw3) - B*C/(2*A_pw2) + D/A`. -/
noncomputable def betaOf (A B C D : ℝ) : ℝ :=
  (B * B) * B / (8 * ((A * A) * A)) - B * C / (2 * (A * A)) + D / A

/-- Source line 214:
`gamma = -3*B_pw4/(256*A_pw4) + B_pw2*C/(16*A_pw3) - B*D/(4*A_pw2) + E/A`. -/
noncomputable def gammaOf (A B C D E : ℝ) : ℝ :=
  -3 * (((B * B) * B) * B) / (256 * (((A * A) * A) * A)) +
    (B * B) * C / (16 * ((A * A) * A)) - B * D / (4 * (A * A)) + E / A

/-- Source line 219: `P = complex(-alpha_pw2/12 - gamma, 0)`. -/
noncomputable def Pof (alpha gamma : ℝ) : ℂ :=
  ((-(alpha * alpha) / 12 - gamma : ℝ) : ℂ)

/-- Source line 220: `Q = complex(-alpha_pw3/108 + alpha*gamma/3 - beta^2/8, 0)`. -/
noncomputable def Qof (alpha beta gamma : ℝ) : ℂ :=
  ((-((alpha * alpha) * alpha) / 108 + alpha * gamma / 3 - beta ^ 2 / 8 : ℝ) : ℂ)

/-- Source line 221: `R = -Q/2 + sqrt(Q^2/4 + P^3/27)` in complex arithmetic. -/
noncomputable def Rof (P Q : ℂ) : ℂ :=
  -Q / 2 + csqrt (Q ^ 2 / 4 + P ^ 3 / 27)

/-- Source line 223: `U = pow(R, 1.0/3.0)`, the principal complex cube root. -/
noncomputable def Uof (R : ℂ) : ℂ :=
  ccbrt R

/-- The resolvent value `y` (source lines 226-233): when `U.real() == 0`,
`y = -5 alpha/6 - Q^(1/3)`, otherwise `y = -5 alpha/6 - P/(3U) + U`. -/
noncomputable def yOf (alpha : ℝ) (P Q U : ℂ) : ℂ :=
  if U.re = 0 then ((-5 * alpha / 6 : ℝ) : ℂ) - ccbrt Q
  else ((-5 * alpha / 6 : ℝ) : ℂ) - P / (3 * U) + U

/-- Source line 235: `w = sqrt(alpha + 2 y)` in complex arithmetic. -/
noncomputable def wOf (alpha : ℝ) (y : ℂ) : ℂ :=
  csqrt ((alpha : ℂ) + 2 * y)

/-- Source lines 197-249, `P3P_Kneip::solveQuartic`: given the five real
coefficients `A..E` of `A x^4 + B x^3 + C x^2 + D x + E`, return the real
parts of the four closed-form roots, in the fixed order of the source. -/
noncomputable def solveQuartic (A B C D E : ℝ) : ℝ × ℝ × ℝ × ℝ :=
  let alpha := alphaOf A B C
  let beta := betaOf A B C D
  let gamma := gammaOf A B C D E
  let P := Pof alpha gamma
  let Q := Qof alpha beta gamma
  let R := Rof P Q
  let U := Uof R
  let y := yOf alpha P Q U
  let w := wOf alpha y
  ((((-B / (4 * A) : ℝ) : ℂ) +
      (1 / 2 : ℂ) * (w + csqrt (-(((3 * alpha : ℝ) : ℂ) + 2 * y + ((2 * beta : ℝ) : ℂ) / w)))).re,
   (((-B / (4 * A) : ℝ) : ℂ) +
      (1 / 2 : ℂ) * (w - csqrt (-(((3 * alpha : ℝ) : ℂ) + 2 * y + ((2 * beta : ℝ) : ℂ) / w)))).re,
   (((-B / (4 * A) : ℝ) : ℂ) +
      (1 / 2 : ℂ) * (-w + csqrt (-(((3 * alpha : ℝ) : ℂ) + 2 * y - ((2 * beta : ℝ) : ℂ) / w)))).re,
   (((-B / (4 * A) : ℝ) : ℂ) +
      (1 / 2 : ℂ) * (-w - csqrt (-(((3 * alpha : ℝ) : ℂ) + 2 * y - ((2 * beta : ℝ) : ℂ) / w)))).re)

/-! ## The pose solver `P3P_Kneip::computePoses`

The source is a single function with early return; it is factored here into
the intermediate camera frame (`frameT`, lines 58-70), the ordering swap
(`swapOrder`, lines 72-94), the per-root back-substitution (`backSubst`,
lines 160-192 loop body) and the success-path pipeline (`posesFromOrdered`),
with `computePoses` keeping the degeneracy check and the early return. -/

/-- Lines 58-70: the intermediate camera frame built from the first two
feature vectors: `e1 = f1`, `e3 = (f1 x f2)` normalized, `e2 = e3 x e1`,
assembled as columns and then transposed in place. -/
noncomputable def frameT (f1 f2 : Vec3) : Mat3 :=
  let e1 := f1
  let e3 := (Vec3.cross f1 f2).divScalar (Vec3.cross f1 f2).norm
  let e2 := Vec3.cross e3 e1
  (Mat3.fromCols e1 e2 e3).transpose

/-- Lines 72-94: express `f3` in the frame of `f1, f2`; if its third
coordinate is positive, swap feature vectors 0 and 1 and world points 0 and 1
(the frame is then rebuilt from the swapped vectors by `posesFromOrdered`). -/
noncomputable def swapOrder (featureVectors worldPoints : Mat3) : Mat3 × Mat3 :=
  let f3 := (frameT featureVectors.c0 featureVectors.c1).mulVec featureVectors.c2
  if f3.z > 0 then
    (Mat3.fromCols featureVectors.c1 featureVectors.c0 featureVectors.c2,
     Mat3.fromCols worldPoints.c1 worldPoints.c0 worldPoints.c2)
  else
    (featureVectors, worldPoints)

/-- Line 120-129: `b = 1/(1 - cos_beta^2) - 1`, then `b = -sqrt(b)` when
`cos_beta < 0` and `b = sqrt(b)` otherwise. -/
noncomputable def signedB (cos_beta : ℝ) : ℝ :=
  let b := 1 / (1 - cos_beta ^ 2) - 1
  if cos_beta < 0 then -Real.sqrt b else Real.sqrt b

/-- Lines 163-164: the cotangent of the angle alpha recovered from one
quartic root. -/
noncomputable def cotAlphaOf (f_1 f_2 p_1 p_2 d_12 b root : ℝ) : ℝ :=
  (-f_1 * p_1 / f_2 - root * p_2 + d_12 * b) /
    (-f_1 * root * p_2 / f_2 + p_1 - d_12)

/-- Line 168: `sin_alpha = sqrt(1/(cot_alpha^2 + 1))`. -/
noncomputable def sinAlphaOf (cot_alpha : ℝ) : ℝ :=
  Real.sqrt (1 / (cot_alpha ^ 2 + 1))

/-- Lines 169-174: `cos_alpha = sqrt(1 - sin_alpha^2)`, negated exactly when
`cot_alpha < 0`. -/
noncomputable def cosAlphaOf (cot_alpha : ℝ) : ℝ :=
  if cot_alpha < 0 then -Real.sqrt (1 - sinAlphaOf cot_alpha ^ 2)
  else Real.sqrt (1 - sinAlphaOf cot_alpha ^ 2)

/-- Lines 161-192, loop body: back-substitution of one quartic root into a
candidate pose (camera center `C` and rotation `R`). -/
noncomputable def backSubst (f_1 f_2 p_1 p_2 d_12 b : ℝ) (P1 : Vec3) (N T : Mat3)
    (root : ℝ) : Pose :=
  let cot_alpha := cotAlphaOf f_1 f_2 p_1 p_2 d_12 b root
  let cos_theta := root
  let sin_theta := Real.sqrt (1 - root ^ 2)
  let sin_alpha := sinAlphaOf cot_alpha
  let cos_alpha := cosAlphaOf cot_alpha
  let Cv : Vec3 :=
    ⟨d_12 * cos_alpha * (sin_alpha * b + cos_alpha),
     cos_theta * d_12 * sin_alpha * (sin_alpha * b + cos_alpha),
     sin_theta * d_12 * sin_alpha * (sin_alpha * b + cos_alpha)⟩
  let Cw := P1 + N.transpose.mulVec Cv
  let Rm := Mat3.fromRows
    ⟨-cos_alpha, -sin_alpha * cos_theta, -sin_alpha * sin_theta⟩
    ⟨sin_alpha, -cos_alpha * cos_theta, -cos_alpha * sin_theta⟩
    ⟨0, -sin_theta, cos_theta⟩
  let Rw := Mat3.mul (Mat3.mul N.transpose Rm.transpose) T
  ⟨Rw, Cw⟩

/-- Lines 96-192 on the (possibly swapped) ordered inputs: rebuild the camera
frame, build the intermediate world frame, derive `d_12, f_1, f_2, p_1, p_2, b`,
form the quartic coefficients (lines 147-153), solve the quartic, and
back-substitute each of the four roots, in order. -/
noncomputable def posesFromOrdered (featureVectors worldPoints : Mat3) : List Pose :=
  let f1 := featureVectors.c0
  let f2 := featureVectors.c1
  let f3v := featureVectors.c2
  let P1 := worldPoints.c0
  let P2 := worldPoints.c1
  let P3 := worldPoints.c2
  let T := frameT f1 f2
  let f3 := T.mulVec f3v
  let n1 := (P2 - P1).divScalar (P2 - P1).norm
  let n3 := (Vec3.cross n1 (P3 - P1)).divScalar (Vec3.cross n1 (P3 - P1)).norm
  let n2 := Vec3.cross n3 n1
  let N := (Mat3.fromCols n1 n2 n3).transpose
  let P3n := N.mulVec (P3 - P1)
  let d_12 := (P2 - P1).norm
  let f_1 := f3.x / f3.z
  let f_2 := f3.y / f3.z
  let p_1 := P3n.x
  let p_2 := P3n.y
  let b := signedB (Vec3.dot f1 f2)
  let f_1_pw2 := f_1 ^ 2
  let f_2_pw2 := f_2 ^ 2
  let p_1_pw2 := p_1 ^ 2
  let p_1_pw3 := p_1_pw2 * p_1
  let p_1_pw4 := p_1_pw3 * p_1
  let p_2_pw2 := p_2 ^ 2
  let p_2_pw3 := p_2_pw2 * p_2
  let p_2_pw4 := p_2_pw3 * p_2
  let d_12_pw2 := d_12 ^ 2
  let b_pw2 := b ^ 2
  let fac0 := -f_2_pw2 * p_2_pw4 - p_2_pw4 * f_1_pw2 - p_2_pw4
  let fac1 := 2 * p_2_pw3 * d_12 * b + 2 * f_2_pw2 * p_2_pw3 * d_12 * b -
    2 * f_2 * p_2_pw3 * f_1 * d_12
  let fac2 := -f_2_pw2 * p_2_pw2 * p_1_pw2 - f_2_pw2 * p_2_pw2 * d_12_pw2 * b_pw2 -
    f_2_pw2 * p_2_pw2 * d_12_pw2 + f_2_pw2 * p_2_pw4 + p_2_pw4 * f_1_pw2 +
    2 * p_1 * p_2_pw2 * d_12 + 2 * f_1 * f_2 * p_1 * p_2_pw2 * d_12 * b -
    p_2_pw2 * p_1_pw2 * f_1_pw2 + 2 * p_1 * p_2_pw2 * f_2_pw2 * d_12 -
    p_2_pw2 * d_12_pw2 * b_pw2 - 2 * p_1_pw2 * p_2_pw2
  let fac3 := 2 * p_1_pw2 * p_2 * d_12 * b + 2 * f_2 * p_2_pw3 * f_1 * d_12 -
    2 * f_2_pw2 * p_2_pw3 * d_12 * b - 2 * p_1 * p_2 * d_12_pw2 * b
  let fac4 := -2 * f_2 * p_2_pw2 * f_1 * p_1 * d_12 * b +
    f_2_pw2 * p_2_pw2 * d_12_pw2 + 2 * p_1_pw3 * d_12 - p_1_pw2 * d_12_pw2 +
    f_2_pw2 * p_2_pw2 * p_1_pw2 - p_1_pw4 - 2 * f_2_pw2 * p_2_pw2 * p_1 * d_12 +
    p_2_pw2 * f_1_pw2 * p_1_pw2 + f_2_pw2 * p_2_pw2 * d_12_pw2 * b_pw2
  let r := solveQuartic fac0 fac1 fac2 fac3 fac4
  [backSubst f_1 f_2 p_1 p_2 d_12 b P1 N T r.1,
   backSubst f_1 f_2 p_1 p_2 d_12 b P1 N T r.2.1,
   backSubst f_1 f_2 p_1 p_2 d_12 b P1 N T r.2.2.1,
   backSubst f_1 f_2 p_1 p_2 d_12 b P1 N T r.2.2.2]

/-- The four candidate poses of the success path: the ordering swap followed
by the ordered pipeline. -/
noncomputable def computeFourPoses (featureVectors worldPoints : Mat3) : List Pose :=
  posesFromOrdered (swapOrder featureVectors worldPoints).1
    (swapOrder featureVectors worldPoints).2

/-- Source lines 35-195, `P3P_Kneip::computePoses`: check the collinearity of
the world points (lines 42-51, exact-zero test, early return `-1` leaving the
solutions container untouched); otherwise append the four candidate poses to
the container and return `0`. -/
noncomputable def computePoses (featureVectors worldPoints : Mat3)
    (solutions : List Pose) : Int × List Pose :=
  let P1 := worldPoints.c0
  let P2 := worldPoints.c1
  let P3 := worldPoints.c2
  let temp1 := P2 - P1
  let temp2 := P3 - P1
  if (Vec3.cross temp1 temp2).norm = 0 then (-1, solutions)
  else (0, solutions ++ computeFourPoses featureVectors worldPoints)

/-! ## Definitions taken from the specification text, for comparison -/

/-- The root formula as the specification words it: for signs `s1, s2` (each
`1` or `-1`), the real part of
`-B/(4A) + s1*w/2 + s2*sqrt(-(3 alpha + 2 y + s1*(2 beta/w)))/2`,
the inner sign before `2 beta/w` following the first sign `s1`. -/
noncomputable def specQuarticRoot (A B C D E s1 s2 : ℝ) : ℝ :=
  let alpha := alphaOf A B C
  let beta := betaOf A B C D
  let gamma := gammaOf A B C D E
  let P := Pof alpha gamma
  let Q := Qof alpha beta gamma
  let U := Uof (Rof P Q)
  let y := yOf alpha P Q U
  let w := wOf alpha y
  (((-B / (4 * A) : ℝ) : ℂ) + (s1 : ℂ) * w / 2 +
    (s2 : ℂ) * csqrt (-(((3 * alpha : ℝ) : ℂ) + 2 * y + (s1 : ℂ) * (((2 * beta : ℝ) : ℂ) / w))) / 2).re

/-! ## Concrete sample inputs used by the witness theorems -/

/-- Sample feature-vector matrix: the three canonical basis directions. -/
def sampleFv : Mat3 :=
  Mat3.fromCols ⟨1, 0, 0⟩ ⟨0, 1, 0⟩ ⟨0, 0, 1⟩

/-- Sample world points that are not collinear. -/
def wpGood : Mat3 :=
  Mat3.fromCols ⟨0, 0, 0⟩ ⟨1, 0, 0⟩ ⟨0, 1, 0⟩

/-- Sample world points that are exactly collinear. -/
def wpLine : Mat3 :=
  Mat3.fromCols ⟨0, 0, 0⟩ ⟨1, 0, 0⟩ ⟨2, 0, 0⟩

/-- A sample pre-existing pose for exercising the solutions container. -/
def samplePose : Pose :=
  ⟨Mat3.fromCols ⟨1, 0, 0⟩ ⟨0, 1, 0⟩ ⟨0, 0, 1⟩, ⟨0, 0, 0⟩⟩

/-! ## Helper lemmas -/

theorem Vec3.sub_def (a b : Vec3) : a - b = ⟨a.x - b.x, a.y - b.y, a.z - b.z⟩ := rfl

theorem Vec3.add_def (a b : Vec3) : a + b = ⟨a.x + b.x, a.y + b.y, a.z + b.z⟩ := rfl

theorem computeFourPoses_length (fv wp : Mat3) : (computeFourPoses fv wp).length = 4 := rfl

/-- C3: for every coefficient vector `(A,B,C,D,E)` with `A` nonzero, `solveQuartic`
computes the depression parameters as `alpha = -3B^2/(8A^2) + C/A`,
`beta = B^3/(8A^3) - BC/(2A^2) + D/A` and
`gamma = -3B^4/(256A^4) + B^2 C/(16A^3) - BD/(4A^2) + E/A`,
as real-number expressions over the inputs. -/
theorem quartic_depression_params (A B C D E : ℝ) (_hA : A ≠ 0) :
    alphaOf A B C = -3 * B ^ 2 / (8 * A ^ 2) + C / A ∧
    betaOf A B C D = B ^ 3 / (8 * A ^ 3) - B * C / (2 * A ^ 2) + D / A ∧
    gammaOf A B C D E =
      -3 * B ^ 4 / (256 * A ^ 4) + B ^ 2 * C / (16 * A ^ 3) - B * D / (4 * A ^ 2) + E / A := by
  refine ⟨?_, ?_, ?_⟩ <;> simp only [alphaOf, betaOf, gammaOf] <;> ring

theorem quartic_depression_params_witness :
    (2 : ℝ) ≠ 0 ∧
    (alphaOf 2 1 1 = -3 * 1 ^ 2 / (8 * 2 ^ 2) + 1 / 2 ∧
     betaOf 2 1 1 1 = 1 ^ 3 / (8 * 2 ^ 3) - 1 * 1 / (2 * 2 ^ 2) + 1 / 2 ∧
     gammaOf 2 1 1 1 1 =
       -3 * 1 ^ 4 / (256 * 2 ^ 4) + 1 ^ 2 * 1 / (16 * 2 ^ 3) - 1 * 1 / (4 * 2 ^ 2) + 1 / 2) :=
  ⟨by norm_num, quartic_depression_params 2 1 1 1 1 (by norm_num)⟩

/-- C6: in `solveQuartic`, `R = -Q/2 + sqrt(Q^2/4 + P^3/27)` is computed in complex
arithmetic with the principal branches, and the resolvent value `y` equals
`-5 alpha/6 - Q^(1/3)` exactly when the real part of `U = R^(1/3)` is zero, and
`-5 alpha/6 - P/(3U) + U` otherwise. -/
theorem quartic_resolvent_spec (alpha beta gamma : ℝ) :
    Rof (Pof alpha gamma) (Qof alpha beta gamma) =
      -Qof alpha beta gamma / 2 +
        (Qof alpha beta gamma ^ 2 / 4 + Pof alpha gamma ^ 3 / 27) ^ ((1 : ℂ) / 2) ∧
    yOf alpha (Pof alpha gamma) (Qof alpha beta gamma)
        (Uof (Rof (Pof alpha gamma) (Qof alpha beta gamma))) =
      if (Uof (Rof (Pof alpha gamma) (Qof alpha beta gamma))).re = 0 then
        ((-5 * alpha / 6 : ℝ) : ℂ) - Qof alpha beta gamma ^ ((1 : ℂ) / 3)
      else
        ((-5 * alpha / 6 : ℝ) : ℂ) -
          Pof alpha gamma / (3 * Uof (Rof (Pof alpha gamma) (Qof alpha beta gamma))) +
          Uof (Rof (Pof alpha gamma) (Qof alpha beta gamma)) := by
  constructor
  · rfl
  · unfold yOf ccbrt
    rfl

/-- C2: for every coefficient vector with `A` nonzero, `solveQuartic` returns exactly
the four real parts of `-B/(4A) + s1*w/2 + s2*sqrt(-(3 alpha + 2 y + s1*2 beta/w))/2`
for the sign combinations `(s1,s2)` in the fixed order `(+,+), (+,-), (-,+), (-,-)`
(the inner sign before `2 beta/w` following the first sign), not sorted numerically. -/
theorem solveQuartic_branch_order (A B C D E : ℝ) (_hA : A ≠ 0) :
    solveQuartic A B C D E =
      (specQuarticRoot A B C D E 1 1, specQuarticRoot A B C D E 1 (-1),
       specQuarticRoot A B C D E (-1) 1, specQuarticRoot A B C D E (-1) (-1)) := by
  unfold solveQuartic specQuarticRoot
  simp only [Prod.mk.injEq]
  push_cast
  refine ⟨?_, ?_, ?_, ?_⟩ <;>
    · apply congrArg Complex.re
      simp only [one_mul, neg_one_mul, neg_div, ← sub_eq_add_neg]
      ring

theorem solveQuartic_branch_order_witness :
    (1 : ℝ) ≠ 0 ∧
    solveQuartic 1 0 0 0 0 =
      (specQuarticRoot 1 0 0 0 0 1 1, specQuarticRoot 1 0 0 0 0 1 (-1),
       specQuarticRoot 1 0 0 0 0 (-1) 1, specQuarticRoot 1 0 0 0 0 (-1) (-1)) :=
  ⟨by norm_num, solveQuartic_branch_order 1 0 0 0 0 (by norm_num)⟩

/-- C5: the scalar `b` is the square root of `1/(1 - cos_beta^2) - 1` taken with
negative sign when `cos_beta < 0` and non-negative sign otherwise, so the sign of `b`
matches the sign of `cos_beta`; strictly so whenever `cos_beta` is a nonzero valid
cosine, and the squared identity holds whenever the argument is non-negative. -/
theorem signedB_sign_spec (c : ℝ) :
    (c < 0 → signedB c = -Real.sqrt (1 / (1 - c ^ 2) - 1) ∧ signedB c ≤ 0) ∧
    (0 ≤ c → signedB c = Real.sqrt (1 / (1 - c ^ 2) - 1) ∧ 0 ≤ signedB c) ∧
    (-1 < c → c < 0 → signedB c < 0) ∧
    (0 < c → c < 1 → 0 < signedB c) ∧
    (-1 < c → c < 1 → signedB c ^ 2 = 1 / (1 - c ^ 2) - 1) := by
  refine ⟨fun hc => ?_, fun hc => ?_, fun h1 h2 => ?_, fun h1 h2 => ?_, fun h1 h2 => ?_⟩
  · rw [signedB, if_pos hc]
    exact ⟨rfl, neg_nonpos.mpr (Real.sqrt_nonneg _)⟩
  · rw [signedB, if_neg (not_lt.mpr hc)]
    exact ⟨rfl, Real.sqrt_nonneg _⟩
  · have h3 : (0 : ℝ) < 1 - c ^ 2 := by nlinarith
    have harg : 0 < 1 / (1 - c ^ 2) - 1 := by
      have h5 : 1 < 1 / (1 - c ^ 2) := by
        rw [lt_div_iff₀ h3]
        nlinarith
      linarith
    rw [signedB, if_pos h2]
    exact neg_lt_zero.mpr (Real.sqrt_pos.mpr harg)
  · have h3 : (0 : ℝ) < 1 - c ^ 2 := by nlinarith
    have harg : 0 < 1 / (1 - c ^ 2) - 1 := by
      have h5 : 1 < 1 / (1 - c ^ 2) := by
        rw [lt_div_iff₀ h3]
        nlinarith
      linarith
    rw [signedB, if_neg (not_lt.mpr h1.le)]
    exact Real.sqrt_pos.mpr harg
  · have h3 : (0 : ℝ) < 1 - c ^ 2 := by nlinarith
    have harg : 0 ≤ 1 / (1 - c ^ 2) - 1 := by
      have h5 : 1 ≤ 1 / (1 - c ^ 2) := by
        rw [le_div_iff₀ h3]
        nlinarith
      linarith
    rw [signedB]
    split_ifs with h
    · rw [neg_pow, Real.sq_sqrt harg]
      norm_num
    · exact Real.sq_sqrt harg

theorem signedB_sign_spec_witness :
    ((-1 : ℝ) < -(1 / 2) ∧ (-(1 / 2) : ℝ) < 0) ∧ signedB (-(1 / 2)) < 0 :=
  ⟨⟨by norm_num, by norm_num⟩, (signedB_sign_spec (-(1 / 2))).2.2.1 (by norm_num) (by norm_num)⟩

/-- C7: in the per-root back-substitution, `cos_alpha` is the non-negative square root
`sqrt(1 - sin_alpha^2)` and is negated exactly when `cot_alpha < 0`, so the sign of
the second angle cosine matches the sign of the cotangent (strictly negative whenever
the cotangent is negative). -/
theorem cosAlpha_sign_spec (f_1 f_2 p_1 p_2 d_12 b root : ℝ) :
    (0 ≤ cotAlphaOf f_1 f_2 p_1 p_2 d_12 b root →
      cosAlphaOf (cotAlphaOf f_1 f_2 p_1 p_2 d_12 b root) =
        Real.sqrt (1 - sinAlphaOf (cotAlphaOf f_1 f_2 p_1 p_2 d_12 b root) ^ 2) ∧
      0 ≤ cosAlphaOf (cotAlphaOf f_1 f_2 p_1 p_2 d_12 b root)) ∧
    (cotAlphaOf f_1 f_2 p_1 p_2 d_12 b root < 0 →
      cosAlphaOf (cotAlphaOf f_1 f_2 p_1 p_2 d_12 b root) =
        -Real.sqrt (1 - sinAlphaOf (cotAlphaOf f_1 f_2 p_1 p_2 d_12 b root) ^ 2) ∧
      cosAlphaOf (cotAlphaOf f_1 f_2 p_1 p_2 d_12 b root) < 0) := by
  generalize cotAlphaOf f_1 f_2 p_1 p_2 d_12 b root = t
  constructor <;> intro h
  · rw [cosAlphaOf, if_neg (not_lt.mpr h)]
    exact ⟨rfl, Real.sqrt_nonneg _⟩
  · rw [cosAlphaOf, if_pos h]
    refine ⟨rfl, neg_lt_zero.mpr (Real.sqrt_pos.mpr ?_)⟩
    have h0 : (0 : ℝ) < t ^ 2 + 1 := by positivity
    have hs : sinAlphaOf t ^ 2 = 1 / (t ^ 2 + 1) := by
      rw [sinAlphaOf, Real.sq_sqrt (by positivity)]
    rw [hs]
    have h5 : 1 / (t ^ 2 + 1) < 1 := by
      rw [div_lt_one h0]
      nlinarith
    linarith

theorem cosAlpha_sign_spec_witness :
    cotAlphaOf 0 1 1 1 0 0 1 < 0 ∧ cosAlphaOf (cotAlphaOf 0 1 1 1 0 0 1) < 0 :=
  ⟨by norm_num [cotAlphaOf],
   ((cosAlpha_sign_spec 0 1 1 1 0 0 1).2 (by norm_num [cotAlphaOf])).2⟩

/-- C1: `computePoses` (on an initially empty solutions container) returns status `-1`
if and only if the norm of the cross product of `(worldPoint1 - worldPoint0)` and
`(worldPoint2 - worldPoint0)` is exactly zero, in which case no candidate pose is
produced; for every other input it returns `0` and produces exactly 4 candidate
poses, regardless of their numerical validity. -/
theorem computePoses_status_spec (fv wp : Mat3) :
    ((computePoses fv wp []).1 = -1 ↔
      (Vec3.cross (wp.c1 - wp.c0) (wp.c2 - wp.c0)).norm = 0) ∧
    ((Vec3.cross (wp.c1 - wp.c0) (wp.c2 - wp.c0)).norm = 0 →
      (computePoses fv wp []).2 = []) ∧
    ((Vec3.cross (wp.c1 - wp.c0) (wp.c2 - wp.c0)).norm ≠ 0 →
      (computePoses fv wp []).1 = 0 ∧ (computePoses fv wp []).2.length = 4) := by
  unfold computePoses
  by_cases h : (Vec3.cross (wp.c1 - wp.c0) (wp.c2 - wp.c0)).norm = 0
  · rw [if_pos h]
    simp [h]
  · rw [if_neg h]
    simp [h, computeFourPoses_length]

theorem computePoses_status_spec_witness :
    (Vec3.cross (wpGood.c1 - wpGood.c0) (wpGood.c2 - wpGood.c0)).norm ≠ 0 ∧
    (computePoses sampleFv wpGood []).1 = 0 ∧
    (computePoses sampleFv wpGood []).2.length = 4 :=
  ⟨by norm_num [wpGood, Mat3.fromCols, Vec3.sub_def, Vec3.cross, Vec3.norm, Vec3.normSq,
      Real.sqrt_one],
   (computePoses_status_spec sampleFv wpGood).2.2
     (by norm_num [wpGood, Mat3.fromCols, Vec3.sub_def, Vec3.cross, Vec3.norm, Vec3.normSq,
        Real.sqrt_one])⟩

/-- C10: `computePoses` only appends to the caller-supplied solutions container: on
the degenerate return path the container is exactly as passed in, and on the success
path exactly 4 entries are appended after any pre-existing entries. -/
theorem computePoses_append_spec (fv wp : Mat3) (sols : List Pose) :
    ((computePoses fv wp sols).1 = -1 → (computePoses fv wp sols).2 = sols) ∧
    ((computePoses fv wp sols).1 = 0 →
      (computePoses fv wp sols).2 = sols ++ computeFourPoses fv wp ∧
      (computePoses fv wp sols).2.length = sols.length + 4 ∧
      (computePoses fv wp sols).2.take sols.length = sols) := by
  unfold computePoses
  by_cases h : (Vec3.cross (wp.c1 - wp.c0) (wp.c2 - wp.c0)).norm = 0
  · rw [if_pos h]
    simp
  · rw [if_neg h]
    refine ⟨by simp, fun _ => ⟨rfl, ?_, ?_⟩⟩
    · simp [computeFourPoses_length]
    · simp [List.take_left]

theorem computePoses_append_spec_witness :
    (computePoses sampleFv wpLine [samplePose]).1 = -1 ∧
    (computePoses sampleFv wpLine [samplePose]).2 = [samplePose] := by
  have hcond : (Vec3.cross (wpLine.c1 - wpLine.c0) (wpLine.c2 - wpLine.c0)).norm = 0 := by
    norm_num [wpLine, Mat3.fromCols, Vec3.sub_def, Vec3.cross, Vec3.norm, Vec3.normSq,
      Real.sqrt_zero]
  have hstat : (computePoses sampleFv wpLine [samplePose]).1 = -1 := by
    unfold computePoses
    rw [if_pos hcond]
  exact ⟨hstat, (computePoses_append_spec sampleFv wpLine [samplePose]).1 hstat⟩

/-- C4: after expressing the third direction in the frame built from directions 0
and 1, the roles of directions 0 and 1 (and of world points 0 and 1) are swapped if
and only if its third coordinate is strictly positive, and the camera frame is then
rebuilt from the swapped directions before any further computation
(`posesFromOrdered` starts by rebuilding `frameT` from its arguments). -/
theorem swapOrder_spec (fv wp : Mat3) :
    (0 < ((frameT fv.c0 fv.c1).mulVec fv.c2).z →
      swapOrder fv wp =
        (Mat3.fromCols fv.c1 fv.c0 fv.c2, Mat3.fromCols wp.c1 wp.c0 wp.c2) ∧
      computeFourPoses fv wp =
        posesFromOrdered (Mat3.fromCols fv.c1 fv.c0 fv.c2)
          (Mat3.fromCols wp.c1 wp.c0 wp.c2)) ∧
    (¬ 0 < ((frameT fv.c0 fv.c1).mulVec fv.c2).z →
      swapOrder fv wp = (fv, wp) ∧
      computeFourPoses fv wp = posesFromOrdered fv wp) := by
  constructor <;> intro h
  · have hs : swapOrder fv wp =
        (Mat3.fromCols fv.c1 fv.c0 fv.c2, Mat3.fromCols wp.c1 wp.c0 wp.c2) := by
      unfold swapOrder
      rw [if_pos h]
    exact ⟨hs, by unfold computeFourPoses; rw [hs]⟩
  · have hs : swapOrder fv wp = (fv, wp) := by
      unfold swapOrder
      rw [if_neg h]
    exact ⟨hs, by unfold computeFourPoses; rw [hs]⟩

theorem swapOrder_spec_witness :
    0 < ((frameT sampleFv.c0 sampleFv.c1).mulVec sampleFv.c2).z ∧
    swapOrder sampleFv wpGood =
      (Mat3.fromCols sampleFv.c1 sampleFv.c0 sampleFv.c2,
       Mat3.fromCols wpGood.c1 wpGood.c0 wpGood.c2) := by
  have h : 0 < ((frameT sampleFv.c0 sampleFv.c1).mulVec sampleFv.c2).z := by
    norm_num [frameT, sampleFv, Mat3.fromCols, Mat3.transpose, Mat3.mulVec, Vec3.cross,
      Vec3.divScalar, Vec3.norm, Vec3.normSq, Real.sqrt_one]
  exact ⟨h, ((swapOrder_spec sampleFv wpGood).1 h).1⟩

/-- C8: `computePoses` and `solveQuartic` are deterministic pure functions: two
invocations with identical inputs produce identical outputs; as total functions of
their arguments they have no hidden, global, or cross-call state. -/
theorem solver_deterministic (fv wp fv2 wp2 : Mat3) (sols sols2 : List Pose)
    (A B C D E A2 B2 C2 D2 E2 : ℝ)
    (hfv : fv = fv2) (hwp : wp = wp2) (hsols : sols = sols2)
    (hA : A = A2) (hB : B = B2) (hC : C = C2) (hD : D = D2) (hE : E = E2) :
    computePoses fv wp sols = computePoses fv2 wp2 sols2 ∧
    solveQuartic A B C D E = solveQuartic A2 B2 C2 D2 E2 := by
  subst hfv hwp hsols hA hB hC hD hE
  exact ⟨rfl, rfl⟩

theorem solver_deterministic_witness :
    computePoses sampleFv wpGood [] = computePoses sampleFv wpGood [] ∧
    solveQuartic 1 0 0 0 0 = solveQuartic 1 0 0 0 0 :=
  solver_deterministic sampleFv wpGood sampleFv wpGood [] [] 1 0 0 0 0 1 0 0 0 0
    rfl rfl rfl rfl rfl rfl rfl rfl

/-- C9: for every real input, `computePoses` and `solveQuartic` run to completion and
produce a result: the status is `-1` or `0` (no other failure is ever reported), and
the quartic solver always yields a 4-tuple; numerical degeneracies only flow into the
returned values, which models the non-trapping IEEE semantics of the source. -/
theorem solver_total_status (fv wp : Mat3) (sols : List Pose) (A B C D E : ℝ) :
    ((computePoses fv wp sols).1 = -1 ∨ (computePoses fv wp sols).1 = 0) ∧
    (∃ r : ℝ × ℝ × ℝ × ℝ, solveQuartic A B C D E = r) ∧
    (∃ p : Int × List Pose, computePoses fv wp sols = p) := by
  refine ⟨?_, ⟨_, rfl⟩, ⟨_, rfl⟩⟩
  unfold computePoses
  by_cases h : (Vec3.cross (wp.c1 - wp.c0) (wp.c2 - wp.c0)).norm = 0
  · rw [if_pos h]
    simp
  · rw [if_neg h]
    simp
